import Mathlib

/-!
Shallow embedding of the authorization / permission-synchronization subsystem
of the personal-netflix repository, and proofs of its specified properties.

Embedded source files:
- `src/types/user.ts` — `UserRole`, `UserPermissions`
- `src/lib/permissions.ts` — `PERMISSION_MATRIX`, `getPermissionsByRole`
- `src/app/actions/admin-actions.ts` — `bootstrapAdminAction`,
  `syncUserPermissionsAction`
- `src/context/AuthContext.tsx` — the identity-resolution effect of
  `AuthProvider` (fetch record, versioned permission sync, first-login
  provisioning, offline fallback)
- `src/hooks/usePermission.ts` — `usePermission` / `can`
- `src/lib/user-service.ts` — `updateUserPermission`

The Firestore document store is modelled as a function from document id to an
optional document; external verification (firebase-admin `verifyIdToken`) is
modelled by a token carrying its decoded payload plus a validity flag.
-/

/-- `src/types/user.ts`: `type UserRole = 'admin' | 'editor' | 'vip' | 'user' | 'banned'`. -/
inductive UserRole where
  | admin
  | editor
  | vip
  | user
  | banned
deriving DecidableEq, Repr

/-- `src/types/user.ts`: interface `UserPermissions` — the 8 capability flags. -/
structure UserPermissions where
  canManageUsers : Bool
  canDeleteMovie : Bool
  canCreateMovie : Bool
  canUpdateMovie : Bool
  canViewAdminPanel : Bool
  canWatchVipContent : Bool
  canWatchContent : Bool
  canSaveProgress : Bool
deriving DecidableEq, Repr

/-- `src/lib/permissions.ts`: `PERMISSION_MATRIX` — role → permissions mapping. -/
def PERMISSION_MATRIX : UserRole → UserPermissions
  | .admin =>
    { canManageUsers := true
      canDeleteMovie := true
      canCreateMovie := true
      canUpdateMovie := true
      canViewAdminPanel := true
      canWatchVipContent := true
      canWatchContent := true
      canSaveProgress := true }
  | .editor =>
    { canManageUsers := false
      canDeleteMovie := false
      canCreateMovie := true
      canUpdateMovie := true
      canViewAdminPanel := true
      canWatchVipContent := true
      canWatchContent := true
      canSaveProgress := true }
  | .vip =>
    { canManageUsers := false
      canDeleteMovie := false
      canCreateMovie := false
      canUpdateMovie := false
      canViewAdminPanel := false
      canWatchVipContent := true
      canWatchContent := true
      canSaveProgress := true }
  | .user =>
    { canManageUsers := false
      canDeleteMovie := false
      canCreateMovie := false
      canUpdateMovie := false
      canViewAdminPanel := false
      canWatchVipContent := false
      canWatchContent := true
      canSaveProgress := true }
  | .banned =>
    { canManageUsers := false
      canDeleteMovie := false
      canCreateMovie := false
      canUpdateMovie := false
      canViewAdminPanel := false
      canWatchVipContent := false
      canWatchContent := false
      canSaveProgress := false }

/-- `src/lib/permissions.ts`: `getPermissionsByRole(role)` returns
`{ ...PERMISSION_MATRIX[role] }`. The TS spread produces a fresh copy; in a
pure value model the copy is the value itself. -/
def getPermissionsByRole (role : UserRole) : UserPermissions :=
  PERMISSION_MATRIX role

/-- `keyof UserPermissions` — the 8 capability keys, used by `can()` and the
dot-path single-flag update. -/
inductive PermKey where
  | canManageUsers
  | canDeleteMovie
  | canCreateMovie
  | canUpdateMovie
  | canViewAdminPanel
  | canWatchVipContent
  | canWatchContent
  | canSaveProgress
deriving DecidableEq, Repr

/-- Dynamic field access `permissions[key]` on a `UserPermissions` object. -/
def getFlag (p : UserPermissions) : PermKey → Bool
  | .canManageUsers => p.canManageUsers
  | .canDeleteMovie => p.canDeleteMovie
  | .canCreateMovie => p.canCreateMovie
  | .canUpdateMovie => p.canUpdateMovie
  | .canViewAdminPanel => p.canViewAdminPanel
  | .canWatchVipContent => p.canWatchVipContent
  | .canWatchContent => p.canWatchContent
  | .canSaveProgress => p.canSaveProgress

/-- Dynamic single-field write `permissions[key] = value`, the effect of a
Firestore dot-path update `"permissions.<key>": value` on the nested map. -/
def setFlag (p : UserPermissions) (k : PermKey) (v : Bool) : UserPermissions :=
  match k with
  | .canManageUsers => { p with canManageUsers := v }
  | .canDeleteMovie => { p with canDeleteMovie := v }
  | .canCreateMovie => { p with canCreateMovie := v }
  | .canUpdateMovie => { p with canUpdateMovie := v }
  | .canViewAdminPanel => { p with canViewAdminPanel := v }
  | .canWatchVipContent => { p with canWatchVipContent := v }
  | .canWatchContent => { p with canWatchContent := v }
  | .canSaveProgress => { p with canSaveProgress := v }

/-- Modelled from the spec: `CURRENT_PERMISSIONS_VERSION` is imported from
`src/lib/permissions` by `AuthContext.tsx` and `admin-actions.ts`, but its
declaration is not among the provided sources. The spec describes it as a
monotonically increasing integer constant ("Bump this number whenever you
change PERMISSION_MATRIX"), and the spec's scenario uses `CURRENT = 2`. -/
def CURRENT_PERMISSIONS_VERSION : Nat := 2

/-- The `permissions` field of a persisted user document: the 8 flags plus the
`version` tag. The version key may be absent (`data.permissions?.version ?? 0`
in the source guards for that), so it is an `Option`. -/
structure PermissionsField where
  flags : UserPermissions
  version : Option Nat
deriving DecidableEq, Repr

/-- A persisted user document in the `users` collection
(`{ role, permissions, email, createdAt, updatedAt }`). The source reads every
field defensively (`data.role ?? 'user'`, `data.permissions ?? ...`), so each
is an `Option`. Timestamps are abstract ticks. -/
structure UserDoc where
  role : Option UserRole
  permissions : Option PermissionsField
  email : Option String
  createdAt : Option Nat
  updatedAt : Option Nat
deriving DecidableEq, Repr

/-- The Firestore `users` collection: uid → document. -/
def Store : Type := String → Option UserDoc

/-- Writing a whole document at a uid (the effect of `setDoc` / a whole-field
`update` after it is folded into the document). -/
def setStore (store : Store) (uid : String) (d : UserDoc) : Store :=
  fun u => if u = uid then some d else store u

/-- A write performed against the store, recorded as (uid, new document). -/
def WriteOp : Type := String × UserDoc

/-- A Firebase ID token as the server actions see it: the decoded payload it
would verify to, plus whether verification succeeds. Models the external
`adminAuth.verifyIdToken` interface of `firebase-admin`. -/
structure IdToken where
  uid : String
  email : Option String
  valid : Bool
deriving DecidableEq, Repr

/-- Decoded token payload returned by a successful verification. -/
structure DecodedIdToken where
  uid : String
  email : Option String
deriving DecidableEq, Repr

/-- Model of `adminAuth.verifyIdToken(idToken)`: returns the decoded payload,
or throws (here: `Except.error`) when the token is invalid or expired. -/
def verifyIdToken (t : IdToken) : Except String DecodedIdToken :=
  if t.valid then .ok ⟨t.uid, t.email⟩
  else .error "Firebase ID token is invalid or expired"

/-- `admin-actions.ts`: `type SyncResult = { success: true; synced: boolean } |
{ success: false; error: string }`. -/
inductive SyncResult where
  | success (synced : Bool)
  | failure (error : String)
deriving DecidableEq, Repr

/-- `admin-actions.ts`: `type BootstrapResult = { success: true; message:
string } | { success: false; error: string }`. -/
inductive BootstrapResult where
  | success (message : String)
  | failure (error : String)
deriving DecidableEq, Repr

/-- `admin-actions.ts` lines 102-136: `syncUserPermissionsAction(idToken)`.
Verifies the token, reads the verified uid's document, and if the stored
permissions version is behind `CURRENT_PERMISSIONS_VERSION`, rewrites the
`permissions` field from `getPermissionsByRole` applied to the *stored* role
(`data.role ?? 'user'`), tagged with the current version, and stamps
`updatedAt`. Returns the result together with the resulting store and the
list of writes performed. -/
def syncUserPermissionsAction (store : Store) (idToken : IdToken) (now : Nat) :
    SyncResult × Store × List WriteOp :=
  match verifyIdToken idToken with
  | .error m => (.failure ("Server error: " ++ m), store, [])
  | .ok decoded =>
    match store decoded.uid with
    | none => (.failure "User document not found.", store, [])
    | some data =>
      let storedVersion : Nat :=
        match data.permissions with
        | some p => p.version.getD 0
        | none => 0
      if storedVersion ≥ CURRENT_PERMISSIONS_VERSION then
        (.success false, store, [])
      else
        let role : UserRole := data.role.getD .user
        let freshPermissions := getPermissionsByRole role
        let newDoc : UserDoc :=
          { data with
            permissions := some ⟨freshPermissions, some CURRENT_PERMISSIONS_VERSION⟩
            updatedAt := some now }
        (.success true, setStore store decoded.uid newDoc, [(decoded.uid, newDoc)])

/-- `admin-actions.ts` lines 49-86: `bootstrapAdminAction(idToken)`. Verifies
the token, checks the server-only `ADMIN_EMAIL` configuration, denies with the
constant message `"Permission denied."` when the email claim does not match,
and on match writes `{ email, role: 'admin', permissions:
resolve('admin')+version, updatedAt }` with `{ merge: true }` (preserving
`createdAt` on an existing document). -/
def bootstrapAdminAction (adminEmail : Option String) (store : Store)
    (idToken : IdToken) (now : Nat) : BootstrapResult × Store × List WriteOp :=
  match verifyIdToken idToken with
  | .error m => (.failure ("Server error: " ++ m), store, [])
  | .ok decoded =>
    match adminEmail with
    | none => (.failure "Server misconfiguration: ADMIN_EMAIL not set.", store, [])
    | some configured =>
      if decoded.email = some configured then
        let adminPermissions := getPermissionsByRole .admin
        let base : UserDoc := (store decoded.uid).getD ⟨none, none, none, none, none⟩
        let newDoc : UserDoc :=
          { base with
            email := decoded.email
            role := some .admin
            permissions := some ⟨adminPermissions, some CURRENT_PERMISSIONS_VERSION⟩
            updatedAt := some now }
        (.success "Successfully promoted to Admin.", setStore store decoded.uid newDoc,
          [(decoded.uid, newDoc)])
      else
        (.failure "Permission denied.", store, [])

/-- The authenticated Firebase user as the client sees it (`firebaseUser`):
the provider-issued uid and email claim. -/
structure FirebaseUser where
  uid : String
  email : Option String
deriving DecidableEq, Repr

/-- The session value `AuthContext` stores: `{ ...firebaseUser, role,
permissions }`. Only the role and the 8 permission flags matter to `can()`. -/
structure AppUser where
  uid : String
  role : UserRole
  permissions : UserPermissions
deriving DecidableEq, Repr

/-- Environment of one identity-resolution cycle: whether the Firestore
`getDoc` read throws (offline/network error), whether the client-side sync
step throws before the server action takes effect (`getIdToken` failure or
unreachable action), and whether the ID token the client mints verifies
server-side. -/
structure ResolveEnv where
  readFails : Bool
  syncThrows : Bool
  tokenValid : Bool
deriving DecidableEq, Repr

/-- Result of one identity-resolution cycle: the store afterwards, the session
user handed to `setUser`, and the writes performed against the store. -/
structure ResolveResult where
  store : Store
  sessionUser : Option AppUser
  writes : List WriteOp

/-- `AuthContext.tsx` lines 80-102: the first-login provisioning branch. The
document was read as absent, so the client builds `{ email, role: 'user',
permissions: resolve('user')+version:CURRENT, createdAt }` and writes it with
`setDoc` — an unconditional whole-document write. -/
def provisionNewUser (store : Store) (fu : FirebaseUser) (now : Nat) : ResolveResult :=
  let defaultPermissions : PermissionsField :=
    ⟨getPermissionsByRole .user, some CURRENT_PERMISSIONS_VERSION⟩
  let newUserData : UserDoc :=
    { email := fu.email
      role := some .user
      permissions := some defaultPermissions
      createdAt := some now
      updatedAt := none }
  { store := setStore store fu.uid newUserData
    sessionUser := some ⟨fu.uid, .user, getPermissionsByRole .user⟩
    writes := [(fu.uid, newUserData)] }

/-- `AuthContext.tsx` lines 46-111: one identity-resolution cycle for an
authenticated `firebaseUser`. Reads the user document (a failed read is caught
and the session defaults to role `'user'`); if the document exists and its
permissions version is stale, calls `syncUserPermissionsAction` with a fresh
ID token (a throw is caught and the stale permissions are kept; on
`success && synced` the document is re-read for the fresh permissions); if the
document is absent, provisions it via `provisionNewUser`. A client-side throw
of the sync step is modelled as happening before any server effect. -/
def resolveAuthCycle (store : Store) (fu : FirebaseUser) (env : ResolveEnv)
    (now : Nat) : ResolveResult :=
  if env.readFails then
    { store := store
      sessionUser := some ⟨fu.uid, .user, getPermissionsByRole .user⟩
      writes := [] }
  else
    match store fu.uid with
    | some data =>
      let role : UserRole := data.role.getD .user
      let permissions0 : UserPermissions :=
        match data.permissions with
        | some p => p.flags
        | none => getPermissionsByRole role
      let storedVersion : Nat :=
        match data.permissions with
        | some p => p.version.getD 0
        | none => 0
      if storedVersion < CURRENT_PERMISSIONS_VERSION then
        if env.syncThrows then
          { store := store
            sessionUser := some ⟨fu.uid, role, permissions0⟩
            writes := [] }
        else
          let idToken : IdToken := ⟨fu.uid, fu.email, env.tokenValid⟩
          match syncUserPermissionsAction store idToken now with
          | (.success true, store1, w1) =>
            let permissions1 : UserPermissions :=
              match store1 fu.uid with
              | some fresh =>
                match fresh.permissions with
                | some p => p.flags
                | none => permissions0
              | none => permissions0
            { store := store1
              sessionUser := some ⟨fu.uid, role, permissions1⟩
              writes := w1 }
          | (.success false, store1, w1) =>
            { store := store1
              sessionUser := some ⟨fu.uid, role, permissions0⟩
              writes := w1 }
          | (.failure _, store1, w1) =>
            { store := store1
              sessionUser := some ⟨fu.uid, role, permissions0⟩
              writes := w1 }
      else
        { store := store
          sessionUser := some ⟨fu.uid, role, permissions0⟩
          writes := [] }
    | none => provisionNewUser store fu now

/-- The value exposed by `AuthContext`: `{ user, loading }`. -/
structure AuthContextType where
  user : Option AppUser
  loading : Bool
deriving DecidableEq, Repr

/-- `usePermission.ts` lines 22-31: `user?.permissions ?? { all flags false }`. -/
def usePermissionPermissions (ctx : AuthContextType) : UserPermissions :=
  match ctx.user with
  | some u => u.permissions
  | none =>
    { canManageUsers := false
      canDeleteMovie := false
      canCreateMovie := false
      canUpdateMovie := false
      canViewAdminPanel := false
      canWatchVipContent := false
      canWatchContent := false
      canSaveProgress := false }

/-- `usePermission.ts` lines 33-35: `can(permission) = permissions[permission]
=== true` (on a `Bool` value, `=== true` is the identity). -/
def can (ctx : AuthContextType) (permission : PermKey) : Bool :=
  getFlag (usePermissionPermissions ctx) permission

/-- `user-service.ts` lines 95-107: `updateUserPermission(uid, key, value)` —
a Firestore `updateDoc` with the dot path `permissions.<key>`. `updateDoc`
fails on a missing document (`none`). A document whose `permissions` map is
absent is outside the fixed-shape model (the dot-path write would create a
partial map); every record this subsystem persists carries the full map. -/
def updateUserPermission (store : Store) (uid : String) (permissionKey : PermKey)
    (newValue : Bool) : Option Store :=
  match store uid with
  | none => none
  | some data =>
    match data.permissions with
    | none => none
    | some p =>
      some (setStore store uid
        { data with permissions := some ⟨setFlag p.flags permissionKey newValue, p.version⟩ })

/-! ## Helper lemmas -/

/-- Reading back the flag just written by a dot-path update. -/
theorem getFlag_setFlag_same (p : UserPermissions) (k : PermKey) (v : Bool) :
    getFlag (setFlag p k v) k = v := by
  cases k <;> rfl

/-- A dot-path update leaves every other flag unchanged. -/
theorem getFlag_setFlag_ne (p : UserPermissions) (k k2 : PermKey) (v : Bool)
    (h : k2 ≠ k) : getFlag (setFlag p k v) k2 = getFlag p k2 := by
  cases k <;> cases k2 <;> simp_all [getFlag, setFlag]

/-- Reading the document just written. -/
theorem setStore_same (store : Store) (uid : String) (d : UserDoc) :
    setStore store uid d uid = some d := by
  simp [setStore]

/-- Writing one document leaves every other document unchanged. -/
theorem setStore_ne (store : Store) (uid u : String) (d : UserDoc)
    (h : u ≠ uid) : setStore store uid d u = store u := by
  simp [setStore, h]

/-! ## Claim theorems -/

/-- C2: `getPermissionsByRole` is total over the five roles (it is a total
function on the `UserRole` enumeration) and returns exactly the spec's matrix:
`admin` has all 8 flags true; `editor` all true except `canManageUsers` and
`canDeleteMovie`; `vip` only `canWatchVipContent`, `canWatchContent`,
`canSaveProgress`; `user` only `canWatchContent`, `canSaveProgress`; `banned`
all false. -/
theorem getPermissionsByRole_matrix :
    getPermissionsByRole .admin =
      ⟨true, true, true, true, true, true, true, true⟩ ∧
    getPermissionsByRole .editor =
      ⟨false, false, true, true, true, true, true, true⟩ ∧
    getPermissionsByRole .vip =
      ⟨false, false, false, false, false, true, true, true⟩ ∧
    getPermissionsByRole .user =
      ⟨false, false, false, false, false, false, true, true⟩ ∧
    getPermissionsByRole .banned =
      ⟨false, false, false, false, false, false, false, false⟩ := by
  decide

/-- C5: `can(key)` is fail-closed — on a session context whose `user` is
`null` (after sign-out, or before resolution completes), it returns `false`
for every one of the 8 capability keys. -/
theorem can_fail_closed (ctx : AuthContextType) (k : PermKey)
    (h : ctx.user = none) : can ctx k = false := by
  cases k <;> simp [can, usePermissionPermissions, getFlag, h]

theorem can_fail_closed_witness :
    (⟨none, false⟩ : AuthContextType).user = none ∧
    can ⟨none, false⟩ PermKey.canWatchContent = false :=
  ⟨rfl, can_fail_closed ⟨none, false⟩ PermKey.canWatchContent rfl⟩

/-- C3: for every verified credential whose email claim differs from the
configured `ADMIN_EMAIL`, `bootstrapAdminAction` denies without writing to the
store, and the denial carries the same constant message
`"Permission denied."` for every non-matching email. -/
theorem bootstrapAdminAction_denies_mismatch (configured : String)
    (store : Store) (idToken : IdToken) (now : Nat)
    (hvalid : idToken.valid = true)
    (hmismatch : idToken.email ≠ some configured) :
    bootstrapAdminAction (some configured) store idToken now =
      (.failure "Permission denied.", store, []) := by
  simp [bootstrapAdminAction, verifyIdToken, hvalid, hmismatch]

/-- The empty `users` collection. -/
def emptyStore : Store := fun _ => none

theorem bootstrapAdminAction_denies_mismatch_witness :
    (⟨"u1", some "attacker@example.com", true⟩ : IdToken).valid = true ∧
    (⟨"u1", some "attacker@example.com", true⟩ : IdToken).email ≠
      some "owner@example.com" ∧
    bootstrapAdminAction (some "owner@example.com") emptyStore
        ⟨"u1", some "attacker@example.com", true⟩ 3 =
      (.failure "Permission denied.", emptyStore, []) :=
  ⟨rfl, by decide,
    bootstrapAdminAction_denies_mismatch "owner@example.com" emptyStore
      ⟨"u1", some "attacker@example.com", true⟩ 3 rfl (by decide)⟩

/-- C1: for every persisted record whose stored permissions version is
strictly below `CURRENT_PERMISSIONS_VERSION`, one `syncUserPermissionsAction`
call on a verified subject leaves the persisted record with version equal to
`CURRENT_PERMISSIONS_VERSION` and flags equal to `getPermissionsByRole`
applied to the role stored in the record (the action takes no caller-supplied
role), while the record's `role` field is unchanged. -/
theorem syncUserPermissionsAction_stale_resyncs (store : Store)
    (idToken : IdToken) (now : Nat) (data : UserDoc) (r : UserRole)
    (pf : PermissionsField) (v : Nat)
    (hvalid : idToken.valid = true)
    (hdoc : store idToken.uid = some data)
    (hrole : data.role = some r)
    (hperm : data.permissions = some pf)
    (hver : pf.version = some v)
    (hstale : v < CURRENT_PERMISSIONS_VERSION) :
    (syncUserPermissionsAction store idToken now).1 = .success true ∧
    ∃ newDoc,
      (syncUserPermissionsAction store idToken now).2.1 idToken.uid = some newDoc ∧
      newDoc.permissions =
        some ⟨getPermissionsByRole r, some CURRENT_PERMISSIONS_VERSION⟩ ∧
      newDoc.role = data.role := by
  have hlt : ¬ v ≥ CURRENT_PERMISSIONS_VERSION := by omega
  simp [syncUserPermissionsAction, verifyIdToken, hvalid, hdoc, hperm, hver,
    hlt, setStore, hrole]

/-- A stale `vip` record: flags from an old schema, version `0`. -/
def staleVipDoc : UserDoc :=
  { role := some .vip
    permissions := some ⟨getPermissionsByRole .banned, some 0⟩
    email := some "vip@example.com"
    createdAt := some 1
    updatedAt := none }

/-- A store holding only the stale `vip` record at `"u1"`. -/
def staleVipStore : Store := fun u => if u = "u1" then some staleVipDoc else none

theorem syncUserPermissionsAction_stale_resyncs_witness :
    (⟨"u1", some "vip@example.com", true⟩ : IdToken).valid = true ∧
    staleVipStore "u1" = some staleVipDoc ∧
    staleVipDoc.role = some .vip ∧
    (0 : Nat) < CURRENT_PERMISSIONS_VERSION ∧
    ((syncUserPermissionsAction staleVipStore
        ⟨"u1", some "vip@example.com", true⟩ 9).1 = .success true ∧
      ∃ newDoc,
        (syncUserPermissionsAction staleVipStore
            ⟨"u1", some "vip@example.com", true⟩ 9).2.1 "u1" = some newDoc ∧
        newDoc.permissions =
          some ⟨getPermissionsByRole .vip, some CURRENT_PERMISSIONS_VERSION⟩ ∧
        newDoc.role = staleVipDoc.role) :=
  ⟨rfl, by decide, rfl, by decide,
    syncUserPermissionsAction_stale_resyncs staleVipStore
      ⟨"u1", some "vip@example.com", true⟩ 9 staleVipDoc .vip
      ⟨getPermissionsByRole .banned, some 0⟩ 0 rfl (by decide) rfl rfl rfl
      (by decide)⟩

/-- C9: the single-capability override `updateUserPermission(uid, key, value)`
changes only that one flag on the persisted record: every other flag, the
permissions `version` field, the `role`, and every other field and document
are unchanged. -/
theorem updateUserPermission_frame (store : Store) (uid : String) (k : PermKey)
    (v : Bool) (data : UserDoc) (pf : PermissionsField)
    (hdoc : store uid = some data) (hperm : data.permissions = some pf) :
    ∃ store1,
      updateUserPermission store uid k v = some store1 ∧
      ∃ newDoc,
        store1 uid = some newDoc ∧
        newDoc.role = data.role ∧
        newDoc.email = data.email ∧
        newDoc.createdAt = data.createdAt ∧
        newDoc.updatedAt = data.updatedAt ∧
        newDoc.permissions = some ⟨setFlag pf.flags k v, pf.version⟩ ∧
        getFlag (setFlag pf.flags k v) k = v ∧
        (∀ k2, k2 ≠ k → getFlag (setFlag pf.flags k v) k2 = getFlag pf.flags k2) ∧
        (∀ u, u ≠ uid → store1 u = store u) := by
  refine ⟨setStore store uid
      { data with permissions := some ⟨setFlag pf.flags k v, pf.version⟩ },
    ?_, ?_⟩
  · simp [updateUserPermission, hdoc, hperm]
  · exact ⟨_, setStore_same _ _ _, rfl, rfl, rfl, rfl, rfl,
      getFlag_setFlag_same _ _ _,
      fun k2 hk2 => getFlag_setFlag_ne _ _ _ _ hk2,
      fun u hu => setStore_ne _ _ _ _ hu⟩

/-- An up-to-date `user`-role record. -/
def plainUserDoc : UserDoc :=
  { role := some .user
    permissions := some ⟨getPermissionsByRole .user, some CURRENT_PERMISSIONS_VERSION⟩
    email := some "user@example.com"
    createdAt := some 2
    updatedAt := none }

/-- A store holding only the up-to-date `user` record at `"u2"`. -/
def plainUserStore : Store := fun u => if u = "u2" then some plainUserDoc else none

theorem updateUserPermission_frame_witness :
    plainUserStore "u2" = some plainUserDoc ∧
    plainUserDoc.permissions =
      some ⟨getPermissionsByRole .user, some CURRENT_PERMISSIONS_VERSION⟩ ∧
    ∃ store1,
      updateUserPermission plainUserStore "u2" PermKey.canDeleteMovie true =
        some store1 ∧
      ∃ newDoc,
        store1 "u2" = some newDoc ∧
        newDoc.role = plainUserDoc.role ∧
        newDoc.email = plainUserDoc.email ∧
        newDoc.createdAt = plainUserDoc.createdAt ∧
        newDoc.updatedAt = plainUserDoc.updatedAt ∧
        newDoc.permissions =
          some ⟨setFlag (getPermissionsByRole .user) PermKey.canDeleteMovie true,
            some CURRENT_PERMISSIONS_VERSION⟩ ∧
        getFlag (setFlag (getPermissionsByRole .user) PermKey.canDeleteMovie true)
          PermKey.canDeleteMovie = true ∧
        (∀ k2, k2 ≠ PermKey.canDeleteMovie →
          getFlag (setFlag (getPermissionsByRole .user) PermKey.canDeleteMovie true) k2 =
            getFlag (getPermissionsByRole .user) k2) ∧
        (∀ u, u ≠ "u2" → store1 u = plainUserStore u) :=
  ⟨by decide, rfl,
    updateUserPermission_frame plainUserStore "u2" PermKey.canDeleteMovie true
      plainUserDoc ⟨getPermissionsByRole .user, some CURRENT_PERMISSIONS_VERSION⟩
      (by decide) rfl⟩

/-- C6: when no record exists for the subject at first successful identity
resolution, the record the cycle creates has role `'user'`, flags
`getPermissionsByRole('user')` and version `CURRENT_PERMISSIONS_VERSION`, and
the session is populated accordingly — the client path never creates a record
with an elevated role. -/
theorem resolveAuthCycle_provisions_user (store : Store) (fu : FirebaseUser)
    (env : ResolveEnv) (now : Nat)
    (hread : env.readFails = false)
    (habsent : store fu.uid = none) :
    (resolveAuthCycle store fu env now).store fu.uid =
      some ⟨some .user,
        some ⟨getPermissionsByRole .user, some CURRENT_PERMISSIONS_VERSION⟩,
        fu.email, some now, none⟩ ∧
    (resolveAuthCycle store fu env now).sessionUser =
      some ⟨fu.uid, .user, getPermissionsByRole .user⟩ := by
  simp [resolveAuthCycle, hread, habsent, provisionNewUser, setStore]

theorem resolveAuthCycle_provisions_user_witness :
    (⟨false, false, true⟩ : ResolveEnv).readFails = false ∧
    emptyStore "u3" = none ∧
    ((resolveAuthCycle emptyStore ⟨"u3", some "x@y.com"⟩ ⟨false, false, true⟩ 4).store "u3" =
        some ⟨some .user,
          some ⟨getPermissionsByRole .user, some CURRENT_PERMISSIONS_VERSION⟩,
          some "x@y.com", some 4, none⟩ ∧
      (resolveAuthCycle emptyStore ⟨"u3", some "x@y.com"⟩ ⟨false, false, true⟩ 4).sessionUser =
        some ⟨"u3", .user, getPermissionsByRole .user⟩) :=
  ⟨rfl, rfl,
    resolveAuthCycle_provisions_user emptyStore ⟨"u3", some "x@y.com"⟩
      ⟨false, false, true⟩ 4 rfl rfl⟩

/-- C7: for every persisted record whose stored permissions version is at
least `CURRENT_PERMISSIONS_VERSION`, a resolution cycle performs zero writes:
the store (and hence the record: role, every flag, version) is identical, and
the stored capabilities are used as-is for the session. -/
theorem resolveAuthCycle_uptodate_no_writes (store : Store) (fu : FirebaseUser)
    (env : ResolveEnv) (now : Nat) (data : UserDoc) (pf : PermissionsField)
    (v : Nat)
    (hread : env.readFails = false)
    (hdoc : store fu.uid = some data)
    (hperm : data.permissions = some pf)
    (hver : pf.version = some v)
    (hcur : CURRENT_PERMISSIONS_VERSION ≤ v) :
    resolveAuthCycle store fu env now =
      ⟨store, some ⟨fu.uid, data.role.getD .user, pf.flags⟩, []⟩ := by
  have hlt : ¬ v < CURRENT_PERMISSIONS_VERSION := by omega
  simp [resolveAuthCycle, hread, hdoc, hperm, hver, hlt]

theorem resolveAuthCycle_uptodate_no_writes_witness :
    (⟨false, false, true⟩ : ResolveEnv).readFails = false ∧
    plainUserStore "u2" = some plainUserDoc ∧
    plainUserDoc.permissions =
      some ⟨getPermissionsByRole .user, some CURRENT_PERMISSIONS_VERSION⟩ ∧
    CURRENT_PERMISSIONS_VERSION ≤ CURRENT_PERMISSIONS_VERSION ∧
    resolveAuthCycle plainUserStore ⟨"u2", some "user@example.com"⟩
        ⟨false, false, true⟩ 6 =
      ⟨plainUserStore,
        some ⟨"u2", plainUserDoc.role.getD .user, getPermissionsByRole .user⟩,
        []⟩ :=
  ⟨rfl, by decide, rfl, le_refl _,
    resolveAuthCycle_uptodate_no_writes plainUserStore
      ⟨"u2", some "user@example.com"⟩ ⟨false, false, true⟩ 6 plainUserDoc
      ⟨getPermissionsByRole .user, some CURRENT_PERMISSIONS_VERSION⟩
      CURRENT_PERMISSIONS_VERSION rfl (by decide) rfl rfl (le_refl _)⟩

/-- C8: when the resync step fails for a stale record — the client-side sync
step throws, or the action returns a failure because the token does not verify
— resolution still completes: the session is populated with the stale stored
role and stored capabilities, the store is unchanged (zero writes), and no
error state is produced. -/
theorem resolveAuthCycle_sync_failure_nonfatal (store : Store)
    (fu : FirebaseUser) (env : ResolveEnv) (now : Nat) (data : UserDoc)
    (r : UserRole) (pf : PermissionsField) (v : Nat)
    (hread : env.readFails = false)
    (hdoc : store fu.uid = some data)
    (hrole : data.role = some r)
    (hperm : data.permissions = some pf)
    (hver : pf.version = some v)
    (hstale : v < CURRENT_PERMISSIONS_VERSION)
    (hfail : env.syncThrows = true ∨ env.tokenValid = false) :
    resolveAuthCycle store fu env now = ⟨store, some ⟨fu.uid, r, pf.flags⟩, []⟩ := by
  cases hthrow : env.syncThrows with
  | true =>
    simp [resolveAuthCycle, hread, hdoc, hrole, hperm, hver, hstale, hthrow]
  | false =>
    rcases hfail with h | h
    · rw [hthrow] at h; cases h
    · simp [resolveAuthCycle, syncUserPermissionsAction, verifyIdToken, hread,
        hdoc, hrole, hperm, hver, hstale, hthrow, h]

theorem resolveAuthCycle_sync_failure_nonfatal_witness :
    (⟨false, false, false⟩ : ResolveEnv).readFails = false ∧
    staleVipStore "u1" = some staleVipDoc ∧
    staleVipDoc.role = some .vip ∧
    staleVipDoc.permissions = some ⟨getPermissionsByRole .banned, some 0⟩ ∧
    (0 : Nat) < CURRENT_PERMISSIONS_VERSION ∧
    (⟨false, false, false⟩ : ResolveEnv).tokenValid = false ∧
    resolveAuthCycle staleVipStore ⟨"u1", some "vip@example.com"⟩
        ⟨false, false, false⟩ 8 =
      ⟨staleVipStore, some ⟨"u1", .vip, getPermissionsByRole .banned⟩, []⟩ :=
  ⟨rfl, by decide, rfl, rfl, by decide, rfl,
    resolveAuthCycle_sync_failure_nonfatal staleVipStore
      ⟨"u1", some "vip@example.com"⟩ ⟨false, false, false⟩ 8 staleVipDoc .vip
      ⟨getPermissionsByRole .banned, some 0⟩ 0 rfl (by decide) rfl rfl rfl
      (by decide) (Or.inr rfl)⟩

/-- C10: if the Firestore read throws during identity resolution for an
authenticated subject, the session is nevertheless populated with role
`'user'` and `getPermissionsByRole('user')` capabilities, whatever the
persisted record contains (the store is untouched) — so for that session a
subject whose stored role is `'banned'` `can()` watch content and save
progress, and a stored `'admin'` loses the admin capabilities. -/
theorem resolveAuthCycle_read_failure_defaults (store : Store)
    (fu : FirebaseUser) (env : ResolveEnv) (now : Nat)
    (hread : env.readFails = true) :
    resolveAuthCycle store fu env now =
      ⟨store, some ⟨fu.uid, .user, getPermissionsByRole .user⟩, []⟩ ∧
    can ⟨(resolveAuthCycle store fu env now).sessionUser, false⟩
      .canWatchContent = true ∧
    can ⟨(resolveAuthCycle store fu env now).sessionUser, false⟩
      .canSaveProgress = true ∧
    can ⟨(resolveAuthCycle store fu env now).sessionUser, false⟩
      .canManageUsers = false ∧
    can ⟨(resolveAuthCycle store fu env now).sessionUser, false⟩
      .canViewAdminPanel = false := by
  simp [resolveAuthCycle, hread, can, usePermissionPermissions, getFlag,
    getPermissionsByRole, PERMISSION_MATRIX]

/-- A `banned` record, up to date at the current version. -/
def bannedDoc : UserDoc :=
  { role := some .banned
    permissions := some ⟨getPermissionsByRole .banned, some CURRENT_PERMISSIONS_VERSION⟩
    email := some "banned@example.com"
    createdAt := some 1
    updatedAt := none }

/-- A store holding only the `banned` record at `"u4"`. -/
def bannedStore : Store := fun u => if u = "u4" then some bannedDoc else none

theorem resolveAuthCycle_read_failure_defaults_witness :
    (⟨true, false, true⟩ : ResolveEnv).readFails = true ∧
    bannedStore "u4" = some bannedDoc ∧
    bannedDoc.role = some .banned ∧
    (resolveAuthCycle bannedStore ⟨"u4", some "banned@example.com"⟩
          ⟨true, false, true⟩ 7 =
        ⟨bannedStore, some ⟨"u4", .user, getPermissionsByRole .user⟩, []⟩ ∧
      can ⟨(resolveAuthCycle bannedStore ⟨"u4", some "banned@example.com"⟩
          ⟨true, false, true⟩ 7).sessionUser, false⟩ .canWatchContent = true ∧
      can ⟨(resolveAuthCycle bannedStore ⟨"u4", some "banned@example.com"⟩
          ⟨true, false, true⟩ 7).sessionUser, false⟩ .canSaveProgress = true ∧
      can ⟨(resolveAuthCycle bannedStore ⟨"u4", some "banned@example.com"⟩
          ⟨true, false, true⟩ 7).sessionUser, false⟩ .canManageUsers = false ∧
      can ⟨(resolveAuthCycle bannedStore ⟨"u4", some "banned@example.com"⟩
          ⟨true, false, true⟩ 7).sessionUser, false⟩ .canViewAdminPanel = false) :=
  ⟨rfl, by decide, rfl,
    resolveAuthCycle_read_failure_defaults bannedStore
      ⟨"u4", some "banned@example.com"⟩ ⟨true, false, true⟩ 7 rfl⟩

/-- An existing `admin` record used to exhibit the first-login create
overwriting an existing document. -/
def existingAdminDoc : UserDoc :=
  { role := some .admin
    permissions := some ⟨getPermissionsByRole .admin, some CURRENT_PERMISSIONS_VERSION⟩
    email := some "owner@example.com"
    createdAt := some 0
    updatedAt := none }

/-- A store already holding the `admin` record at `"u1"`. -/
def existingAdminStore : Store :=
  fun u => if u = "u1" then some existingAdminDoc else none

/-- C4 counterexample: the create operation used on first login (`setDoc` in
`AuthContext.tsx` lines 90-96, embedded as `provisionNewUser`) is not a
create-if-absent. Invoked for subject `"u1"` while a record with role
`'admin'` already exists, it does not fail with `AlreadyExists`: it replaces
the record, silently resetting the stored role to `'user'`. -/
theorem provisionNewUser_overwrites_existing :
    existingAdminStore "u1" = some existingAdminDoc ∧
    existingAdminDoc.role = some .admin ∧
    (provisionNewUser existingAdminStore ⟨"u1", some "owner@example.com"⟩ 5).store "u1" ≠
      some existingAdminDoc ∧
    (provisionNewUser existingAdminStore ⟨"u1", some "owner@example.com"⟩ 5).store "u1" =
      some ⟨some .user,
        some ⟨getPermissionsByRole .user, some CURRENT_PERMISSIONS_VERSION⟩,
        some "owner@example.com", some 5, none⟩ := by
  refine ⟨by decide, rfl, ?_, ?_⟩ <;>
    simp [provisionNewUser, setStore, existingAdminDoc, getPermissionsByRole,
      PERMISSION_MATRIX, CURRENT_PERMISSIONS_VERSION]

/-- C4 amended: the user-record create operation used on first login is a
blind whole-document `setDoc` write — guarded only by the caller's preceding
existence check, never failing with `AlreadyExists`. For every store state, it
unconditionally installs the fresh `'user'`-role document at the subject's id,
so a concurrently created record (and its role) would be replaced rather than
preserved. -/
theorem provisionNewUser_blind_overwrite (store : Store) (fu : FirebaseUser)
    (now : Nat) :
    (provisionNewUser store fu now).store fu.uid =
      some ⟨some .user,
        some ⟨getPermissionsByRole .user, some CURRENT_PERMISSIONS_VERSION⟩,
        fu.email, some now, none⟩ := by
  simp [provisionNewUser, setStore]
